import Mathlib

/-!
Verification of the cognition-loop core of the omni-agi repository:
goal lifecycle (src/core/cognition/goals.py), context TTL handling
(src/core/cognition/context.py), memory storage/eviction/consolidation
(src/cognition/memory.py) and the learning feedback layer
(src/cognition/learning.py).

Conventions of the embedding:
* Python `datetime` timestamps become natural numbers (seconds); every
  operation that reads `datetime.now()` takes the current time as an
  explicit `now : Nat` argument.
* Python `float` quantities (priorities, progress, scores, rates) are
  modelled exactly over `ℚ`.
* Python dicts that preserve insertion order (`GoalManager.goals`) become
  association lists; dicts keyed by a finite enum
  (`MemoryManager.memories`, `ContextManager.current_context`) become
  total functions out of the enum.
* Methods that can raise return `Except String`; the string is the
  Python exception rendered as text.
-/

namespace Agent

namespace Goals

/-- Goal lifecycle states (class GoalStatus). -/
inductive GoalStatus
  | pending
  | active
  | completed
  | failed
  | suspended
deriving DecidableEq, Repr

/-- Goal categories (class GoalType). -/
inductive GoalType
  | market_analysis
  | portfolio_management
  | risk_management
  | social_engagement
  | learning
  | system_optimization
deriving DecidableEq, Repr

/-- One entry of goal.metadata["metrics"], appended by update_goal_progress:
the recorded timestamp, the raw (unclamped) progress argument, and the
extra metric keys passed by the caller. -/
structure MetricEntry where
  timestamp : Nat
  progress : ℚ
  extra : List (String × ℚ)
deriving DecidableEq, Repr

/-- Dataclass Goal.  The free-form metadata dict is modelled by the keys the
code actually reads and writes: "metrics" (list of MetricEntry) and
"failure_reason" (set by fail_goal), plus the caller-supplied remainder. -/
structure Goal where
  id : String
  type : GoalType
  description : String
  priority : ℚ
  status : GoalStatus
  created_at : Nat
  deadline : Option Nat := none
  dependencies : List String := []
  success_criteria : List (String × String) := []
  progress : ℚ := 0
  metrics : List MetricEntry := []
  failure_reason : Option String := none
  metadata : List (String × String) := []
deriving DecidableEq, Repr

/-- State of GoalManager: the insertion-ordered dict of pending/active goals
and the two archive lists. -/
structure GoalManager where
  goals : List (String × Goal)
  completed_goals : List Goal
  failed_goals : List Goal
deriving DecidableEq, Repr

/-- Python dict assignment `self.goals[k] = v`: replace in place when the key
exists, append otherwise. -/
def dictInsert (m : List (String × Goal)) (k : String) (v : Goal) :
    List (String × Goal) :=
  if (m.lookup k).isSome then
    m.map (fun p => if p.1 = k then (k, v) else p)
  else
    m ++ [(k, v)]

/-- Python `del self.goals[k]`. -/
def dictRemove (m : List (String × Goal)) (k : String) : List (String × Goal) :=
  m.filter (fun p => p.1 ≠ k)

/-- GoalManager._check_goal_dependencies, as the status it assigns: with no
dependencies the goal is active; otherwise it is active exactly when no
dependency id is a key of the goals dict (`dep_id in self.goals`). -/
def checkDeps (goalsMap : List (String × Goal)) (g : Goal) : GoalStatus :=
  if g.dependencies.isEmpty then .active
  else if g.dependencies.all (fun d => (goalsMap.lookup d).isNone) then .active
  else .pending

/-- Body of the loop of GoalManager._update_dependent_goals for one goal:
if the completed id is a dependency, remove it (list.remove takes the first
occurrence) and re-run the dependency check.  The re-check only tests key
membership in the goals dict, which the loop never changes, so checking
against the pre-loop snapshot is faithful. -/
def depStep (goalsMap : List (String × Goal)) (cid : String) (g : Goal) : Goal :=
  if cid ∈ g.dependencies then
    let g' := { g with dependencies := g.dependencies.erase cid }
    { g' with status := checkDeps goalsMap g' }
  else g

/-- GoalManager._update_dependent_goals. -/
def updateDependents (goalsMap : List (String × Goal)) (cid : String) :
    List (String × Goal) :=
  goalsMap.map (fun p => (p.1, depStep goalsMap cid p.2))

/-- Fresh goal id f"goal_{len(self.goals) + 1}_{datetime.now().timestamp()}". -/
def freshId (gm : GoalManager) (now : Nat) : String :=
  "goal_" ++ toString (gm.goals.length + 1) ++ "_" ++ toString now

/-- The Goal(...) constructor call inside create_goal: a fresh goal record
with status pending. -/
def mkGoal (gid : String) (goal_type : GoalType) (description : String)
    (priority : ℚ) (deadline : Option Nat) (dependencies : List String)
    (success_criteria : List (String × String))
    (metadata : List (String × String)) (now : Nat) : Goal :=
  { id := gid, type := goal_type, description := description,
    priority := priority, status := .pending, created_at := now,
    deadline := deadline, dependencies := dependencies,
    success_criteria := success_criteria, metadata := metadata }

/-- GoalManager.create_goal: build the goal with status pending, insert it,
then run the dependency check (which mutates the stored goal's status). -/
def create_goal (gm : GoalManager) (goal_type : GoalType) (description : String)
    (priority : ℚ) (deadline : Option Nat) (dependencies : List String)
    (success_criteria : List (String × String)) (metadata : List (String × String))
    (now : Nat) : Goal × GoalManager :=
  let gid := freshId gm now
  let g0 : Goal := mkGoal gid goal_type description priority deadline
    dependencies success_criteria metadata now
  let goals1 := dictInsert gm.goals gid g0
  let g1 := { g0 with status := checkDeps goals1 g0 }
  (g1, { gm with goals := dictInsert goals1 gid g1 })

/-- GoalManager.complete_goal: mark completed, append to the completed
archive, delete from the dict, then cascade the dependency re-check. -/
def complete_goal (gm : GoalManager) (goal_id : String) :
    Except String (Goal × GoalManager) :=
  match gm.goals.lookup goal_id with
  | none => .error ("Goal " ++ goal_id ++ " not found")
  | some g =>
    let g' := { g with status := .completed, progress := 1 }
    let goals1 := dictRemove gm.goals goal_id
    .ok (g', { gm with
      goals := updateDependents goals1 goal_id,
      completed_goals := gm.completed_goals ++ [g'] })

/-- GoalManager.update_goal_progress: raise when the id is unknown, clamp the
stored progress to [0, 1], optionally append a metrics entry (recording the
raw progress argument), and complete the goal when the raw argument is
>= 1.0. -/
def update_goal_progress (gm : GoalManager) (goal_id : String) (progress : ℚ)
    (metrics : Option (List (String × ℚ))) (now : Nat) :
    Except String (Goal × GoalManager) :=
  match gm.goals.lookup goal_id with
  | none => .error ("Goal " ++ goal_id ++ " not found")
  | some g =>
    let g1 := { g with progress := min (max progress 0) 1 }
    let g2 :=
      match metrics with
      | none => g1
      | some [] => g1
      | some ms => { g1 with metrics := g1.metrics ++ [⟨now, progress, ms⟩] }
    let gm1 := { gm with goals := dictInsert gm.goals goal_id g2 }
    if 1 ≤ progress then complete_goal gm1 goal_id
    else .ok (g2, gm1)

/-- GoalManager.fail_goal: mark failed, record the reason, move to the failed
archive.  No dependency re-check is triggered. -/
def fail_goal (gm : GoalManager) (goal_id : String) (reason : String) :
    Except String (Goal × GoalManager) :=
  match gm.goals.lookup goal_id with
  | none => .error ("Goal " ++ goal_id ++ " not found")
  | some g =>
    let g' := { g with status := .failed, failure_reason := some reason }
    .ok (g', { gm with
      goals := dictRemove gm.goals goal_id,
      failed_goals := gm.failed_goals ++ [g'] })

/-- Extract the manager from a successful call, with a fallback for the
error case (used only to write closed statements about concrete traces). -/
def stateOf (r : Except String (Goal × GoalManager)) (fb : GoalManager) :
    GoalManager :=
  match r with
  | .ok p => p.2
  | .error _ => fb

theorem lookup_map_value (f : Goal → Goal) (m : List (String × Goal))
    (k : String) :
    (m.map (fun p => (p.1, f p.2))).lookup k = (m.lookup k).map f := by
  induction m with
  | nil => rfl
  | cons p t ih =>
    obtain ⟨a, b⟩ := p
    by_cases h : k = a
    · subst h
      simp [List.lookup]
    · simp [List.lookup, beq_false_of_ne h, ih]

theorem lookup_updateDependents (m : List (String × Goal)) (cid k : String) :
    (updateDependents m cid).lookup k = (m.lookup k).map (depStep m cid) :=
  lookup_map_value (depStep m cid) m k

theorem lookup_dictRemove_self (m : List (String × Goal)) (k : String) :
    (dictRemove m k).lookup k = none := by
  induction m with
  | nil => rfl
  | cons p t ih =>
    obtain ⟨a, b⟩ := p
    by_cases h : a = k
    · simpa [dictRemove, h] using ih
    · simpa [dictRemove, h, List.lookup, beq_false_of_ne (Ne.symm h)] using ih

theorem lookup_dictRemove_ne (m : List (String × Goal)) (k k' : String)
    (h : k' ≠ k) : (dictRemove m k).lookup k' = m.lookup k' := by
  induction m with
  | nil => rfl
  | cons p t ih =>
    obtain ⟨a, b⟩ := p
    by_cases ha : a = k
    · subst ha
      simp [dictRemove, List.lookup, beq_false_of_ne h] at ih ⊢
      exact ih
    · by_cases hk : k' = a
      · subst hk
        simp [dictRemove, ha, List.lookup]
      · simp [dictRemove, ha, List.lookup, beq_false_of_ne hk] at ih ⊢
        exact ih

theorem lookup_mapReplace (m : List (String × Goal)) (k : String) (v : Goal)
    (h : (m.lookup k).isSome) :
    (m.map (fun p => if p.1 = k then (k, v) else p)).lookup k = some v := by
  induction m with
  | nil => simp [List.lookup] at h
  | cons p t ih =>
    obtain ⟨a, b⟩ := p
    rw [List.map_cons]
    by_cases ha : a = k
    · subst ha
      rw [show (if ((a, b) : String × Goal).1 = a then (a, v) else (a, b)) =
          (a, v) from if_pos rfl]
      simp [List.lookup]
    · rw [show (if ((a, b) : String × Goal).1 = k then (k, v) else (a, b)) =
          (a, b) from if_neg ha]
      have h' : (t.lookup k).isSome := by
        simpa [List.lookup, beq_false_of_ne (Ne.symm ha)] using h
      simpa [List.lookup, beq_false_of_ne (Ne.symm ha)] using ih h'

theorem lookup_dictInsert_self (m : List (String × Goal)) (k : String)
    (v : Goal) : (dictInsert m k v).lookup k = some v := by
  unfold dictInsert
  by_cases h : (m.lookup k).isSome
  · simpa [h] using lookup_mapReplace m k v h
  · have hn : m.lookup k = none := by
      cases hm : m.lookup k
      · rfl
      · simp [hm] at h
    simp [h, List.lookup_append, hn, List.lookup]

theorem lookup_dictInsert_ne (m : List (String × Goal)) (k : String) (v : Goal)
    (k' : String) (h : k' ≠ k) :
    (dictInsert m k v).lookup k' = m.lookup k' := by
  unfold dictInsert
  by_cases hs : (m.lookup k).isSome
  · simp only [hs, if_true]
    clear hs
    induction m with
    | nil => rfl
    | cons p t ih =>
      obtain ⟨a, b⟩ := p
      rw [List.map_cons]
      by_cases ha : a = k
      · subst ha
        rw [show (if ((a, b) : String × Goal).1 = a then (a, v) else (a, b)) =
            (a, v) from if_pos rfl]
        simp only [List.lookup, beq_false_of_ne h]
        exact ih
      · rw [show (if ((a, b) : String × Goal).1 = k then (k, v) else (a, b)) =
            (a, b) from if_neg ha]
        by_cases hk : k' = a
        · subst hk
          simp [List.lookup]
        · simp [List.lookup, beq_false_of_ne hk, ih]
  · simp [hs, List.lookup_append, List.lookup, beq_false_of_ne h]

theorem keys_ne_of_lookup_none (m : List (String × Goal)) (k : String)
    (h : m.lookup k = none) : ∀ p ∈ m, p.1 ≠ k := by
  intro p hp
  have := List.lookup_eq_none_iff.mp h p hp
  intro hc
  simp [hc] at this

theorem dictRemove_dictInsert (m : List (String × Goal)) (k : String)
    (v : Goal) : dictRemove (dictInsert m k v) k = dictRemove m k := by
  unfold dictInsert
  by_cases hs : (m.lookup k).isSome
  · simp only [hs, if_true]
    clear hs
    induction m with
    | nil => rfl
    | cons p t ih =>
      obtain ⟨a, b⟩ := p
      rw [List.map_cons]
      by_cases ha : a = k
      · subst ha
        rw [show (if ((a, b) : String × Goal).1 = a then (a, v) else (a, b)) =
            (a, v) from if_pos rfl]
        simpa [dictRemove] using ih
      · rw [show (if ((a, b) : String × Goal).1 = k then (k, v) else (a, b)) =
            (a, b) from if_neg ha]
        simpa [dictRemove, ha] using ih
  · simp [hs, dictRemove]

/-- Empty GoalManager, as built by GoalManager.__init__. -/
def emptyGM : GoalManager := ⟨[], [], []⟩

/-- Trace for the completion-idempotence scenario: one dependency-free goal
created at time 0; its generated id is "goal_1_0". -/
def c1_goal0 : Goal :=
  (create_goal emptyGM .market_analysis "analyze BTC market" 1 none [] [] [] 0).1

/-- Manager holding exactly the goal of the idempotence scenario. -/
def c1_gm1 : GoalManager :=
  (create_goal emptyGM .market_analysis "analyze BTC market" 1 none [] [] [] 0).2

/-- Manager state after the first update_goal_progress("goal_1_0", 1.0). -/
def c1_gm2 : GoalManager :=
  stateOf (update_goal_progress c1_gm1 "goal_1_0" 1 none 1) emptyGM

/-- C1 counterexample: after update_goal_progress("goal_1_0", 1.0) has driven
the goal to completion (the completed archive holds exactly one entry for
it), the immediate second call update_goal_progress("goal_1_0", 1.0) does
raise: complete_goal deleted the id from self.goals, so the not-found guard
fires ValueError("Goal goal_1_0 not found").  The claim says the second call
does not raise. -/
theorem C1_counterexample :
    c1_gm2.completed_goals.map Goal.id = ["goal_1_0"] ∧
    update_goal_progress c1_gm2 "goal_1_0" 1 none 2 =
      Except.error "Goal goal_1_0 not found" := by
  constructor
  · rfl
  · rfl

/-- C1 amended: goal completion is idempotent at the archive level but not at
the call level.  For any goal present in the active map, the first
update_goal_progress(id, 1.0) completes it, appends exactly one entry for its
id to the completed archive and removes the id from the active map; a second
update_goal_progress(id, 1.0) immediately afterwards raises
ValueError("Goal id not found") instead of returning. -/
theorem C1_update_twice (gm : GoalManager) (gid : String) (g : Goal)
    (now now' : Nat) (h : gm.goals.lookup gid = some g) (hid : g.id = gid) :
    update_goal_progress gm gid 1 none now =
      .ok ({ g with status := .completed, progress := 1 },
        { gm with
          goals := updateDependents (dictRemove gm.goals gid) gid,
          completed_goals := gm.completed_goals ++
            [{ g with status := .completed, progress := 1 }] }) ∧
    (updateDependents (dictRemove gm.goals gid) gid).lookup gid = none ∧
    (gm.completed_goals ++
        [{ g with status := .completed, progress := 1 }]).countP
        (fun x : Goal => x.id == gid) =
      gm.completed_goals.countP (fun x : Goal => x.id == gid) + 1 ∧
    update_goal_progress
      { gm with
        goals := updateDependents (dictRemove gm.goals gid) gid,
        completed_goals := gm.completed_goals ++
          [{ g with status := .completed, progress := 1 }] }
      gid 1 none now' = .error ("Goal " ++ gid ++ " not found") := by
  have hlook : (updateDependents (dictRemove gm.goals gid) gid).lookup gid =
      none := by
    rw [lookup_updateDependents, lookup_dictRemove_self]
    rfl
  refine ⟨?_, hlook, ?_, ?_⟩
  · simp only [update_goal_progress, h]
    rw [if_pos (le_refl (1 : ℚ))]
    simp only [complete_goal, lookup_dictInsert_self, dictRemove_dictInsert]
  · simp [hid]
  · simp only [update_goal_progress, hlook]

/-- Witness for C1_update_twice at the concrete one-goal trace. -/
theorem C1_update_twice_witness :
    update_goal_progress c1_gm1 "goal_1_0" 1 none 1 =
      .ok ({ c1_goal0 with status := .completed, progress := 1 },
        { c1_gm1 with
          goals := updateDependents (dictRemove c1_gm1.goals "goal_1_0")
            "goal_1_0",
          completed_goals := c1_gm1.completed_goals ++
            [{ c1_goal0 with status := .completed, progress := 1 }] }) ∧
    (updateDependents (dictRemove c1_gm1.goals "goal_1_0")
        "goal_1_0").lookup "goal_1_0" = none ∧
    (c1_gm1.completed_goals ++
        [{ c1_goal0 with status := .completed, progress := 1 }]).countP
        (fun x : Goal => x.id == "goal_1_0") =
      c1_gm1.completed_goals.countP (fun x : Goal => x.id == "goal_1_0") + 1 ∧
    update_goal_progress
      { c1_gm1 with
        goals := updateDependents (dictRemove c1_gm1.goals "goal_1_0")
          "goal_1_0",
        completed_goals := c1_gm1.completed_goals ++
          [{ c1_goal0 with status := .completed, progress := 1 }] }
      "goal_1_0" 1 none 2 = .error ("Goal " ++ "goal_1_0" ++ " not found") :=
  C1_update_twice c1_gm1 "goal_1_0" c1_goal0 1 2 (by decide) (by decide)

theorem checkDeps_pending_of_mem (m : List (String × Goal)) (g : Goal)
    (d : String) (hd : d ∈ g.dependencies) (hs : (m.lookup d).isSome = true) :
    checkDeps m g = .pending := by
  unfold checkDeps
  rw [if_neg, if_neg]
  · intro hall
    have := List.all_eq_true.mp hall d hd
    rw [Option.isNone_iff_eq_none.mp this] at hs
    exact Bool.noConfusion hs
  · intro he
    rw [List.isEmpty_iff.mp he] at hd
    exact List.not_mem_nil d hd

theorem checkDeps_active_of_empty (m : List (String × Goal)) (g : Goal)
    (h : g.dependencies = []) : checkDeps m g = .active := by
  simp [checkDeps, h]

theorem complete_goal_on_dependent (gm : GoalManager) (cid k : String)
    (gc gk : Goal) (hc : gm.goals.lookup cid = some gc)
    (hk : gm.goals.lookup k = some gk) (hkc : k ≠ cid) :
    (complete_goal gm cid).isOk = true ∧
    (stateOf (complete_goal gm cid) gm).goals.lookup k =
      some (depStep (dictRemove gm.goals cid) cid gk) := by
  simp only [complete_goal, hc, stateOf]
  refine ⟨rfl, ?_⟩
  rw [lookup_updateDependents, lookup_dictRemove_ne _ _ _ hkc, hk]
  rfl

/-- C2: dependency activation.  In any manager holding goals A and B, a goal
created with dependencies [A, B] starts pending; after complete_goal(A) it is
still pending with remaining dependencies [B] (B is still in the map); after
complete_goal(B) — the moment the last of A, B leaves the pending/active
map — the cascaded re-check flips it to active with no remaining
dependencies. -/
theorem C2_dependency_activation (gm : GoalManager) (A B : String)
    (gA gB : Goal) (goal_type : GoalType) (description : String)
    (priority : ℚ) (deadline : Option Nat)
    (success_criteria metadata : List (String × String)) (now : Nat)
    (hA : gm.goals.lookup A = some gA) (hB : gm.goals.lookup B = some gB)
    (hAB : A ≠ B)
    (hfresh : gm.goals.lookup (freshId gm now) = none) :
    let nid := freshId gm now
    let r := create_goal gm goal_type description priority deadline [A, B]
      success_criteria metadata now
    let gm1 := r.2
    let gm2 := stateOf (complete_goal gm1 A) gm1
    let gm3 := stateOf (complete_goal gm2 B) gm2
    r.1.status = .pending ∧
    gm1.goals.lookup nid = some r.1 ∧
    (complete_goal gm1 A).isOk = true ∧
    (gm2.goals.lookup nid).map Goal.status = some .pending ∧
    (gm2.goals.lookup nid).map Goal.dependencies = some [B] ∧
    (complete_goal gm2 B).isOk = true ∧
    (gm3.goals.lookup nid).map Goal.status = some .active ∧
    (gm3.goals.lookup nid).map Goal.dependencies = some ([] : List String) := by
  intro nid r gm1 gm2 gm3
  have hnidA : A ≠ nid := by
    intro e
    rw [e, hfresh] at hA
    exact Option.noConfusion hA
  have hnidB : B ≠ nid := by
    intro e
    rw [e, hfresh] at hB
    exact Option.noConfusion hB
  have hg0 : r.1 = { mkGoal nid goal_type description priority deadline [A, B]
      success_criteria metadata now with
      status := checkDeps
        (dictInsert gm.goals nid (mkGoal nid goal_type description priority
          deadline [A, B] success_criteria metadata now))
        (mkGoal nid goal_type description priority deadline [A, B]
          success_criteria metadata now) } := rfl
  have hlA0 : (dictInsert gm.goals nid (mkGoal nid goal_type description
      priority deadline [A, B] success_criteria metadata now)).lookup A
      = some gA := by
    rw [lookup_dictInsert_ne _ _ _ _ hnidA, hA]
  have hstat : r.1.status = .pending := by
    rw [hg0]
    show checkDeps
      (dictInsert gm.goals nid (mkGoal nid goal_type description priority
        deadline [A, B] success_criteria metadata now))
      (mkGoal nid goal_type description priority deadline [A, B]
        success_criteria metadata now) = .pending
    refine checkDeps_pending_of_mem _ _ A ?_ ?_
    · exact List.mem_cons_self A [B]
    · rw [hlA0]
      rfl
  have hr1deps : r.1.dependencies = [A, B] := by rw [hg0]; rfl
  have hgm1 : gm1.goals = dictInsert (dictInsert gm.goals nid
      (mkGoal nid goal_type description priority deadline [A, B]
        success_criteria metadata now)) nid r.1 := rfl
  have hlooknid : gm1.goals.lookup nid = some r.1 := by
    rw [hgm1, lookup_dictInsert_self]
  have hlookA1 : gm1.goals.lookup A = some gA := by
    rw [hgm1, lookup_dictInsert_ne _ _ _ _ hnidA, hlA0]
  have hlookB1 : gm1.goals.lookup B = some gB := by
    rw [hgm1, lookup_dictInsert_ne _ _ _ _ hnidB,
      lookup_dictInsert_ne _ _ _ _ hnidB, hB]
  obtain ⟨hok2, hdep2⟩ :=
    complete_goal_on_dependent gm1 A nid gA r.1 hlookA1 hlooknid
      (fun e => hnidA e.symm)
  have hC2val : depStep (dictRemove gm1.goals A) A r.1 =
      { r.1 with dependencies := [B], status := .pending } := by
    unfold depStep
    rw [if_pos (by rw [hr1deps]; exact List.mem_cons_self A [B])]
    have herase : r.1.dependencies.erase A = [B] := by
      rw [hr1deps]
      simp
    rw [herase]
    have hBin : (dictRemove gm1.goals A).lookup B = some gB := by
      rw [lookup_dictRemove_ne _ _ _ (Ne.symm hAB), hlookB1]
    have hpend := checkDeps_pending_of_mem (dictRemove gm1.goals A)
      { r.1 with dependencies := [B] } B (by simp) (by rw [hBin]; rfl)
    simp only [hpend]
  have hlooknid2 : gm2.goals.lookup nid =
      some { r.1 with dependencies := [B], status := .pending } := by
    rw [hdep2, hC2val]
  obtain ⟨hokB1, hdepB1⟩ :=
    complete_goal_on_dependent gm1 A B gA gB hlookA1 hlookB1 (Ne.symm hAB)
  obtain ⟨hok3, hdep3⟩ :=
    complete_goal_on_dependent gm2 B nid
      (depStep (dictRemove gm1.goals A) A gB)
      { r.1 with dependencies := [B], status := .pending }
      hdepB1 hlooknid2 (fun e => hnidB e.symm)
  have hC3val : depStep (dictRemove gm2.goals B) B
      { r.1 with dependencies := [B], status := .pending } =
      { r.1 with dependencies := [], status := .active } := by
    unfold depStep
    rw [if_pos (List.mem_cons_self B [])]
    have hact := checkDeps_active_of_empty (dictRemove gm2.goals B)
      { r.1 with dependencies := List.erase [B] B, status := .pending }
      (by simp)
    simp only [hact]
    simp
  refine ⟨hstat, hlooknid, hok2, ?_, ?_, hok3, ?_, ?_⟩
  · rw [hlooknid2]
    rfl
  · rw [hlooknid2]
    rfl
  · rw [hdep3, hC3val]
    rfl
  · rw [hdep3, hC3val]
    rfl

/-- Manager holding goal A ("goal_1_0", created at 0) and goal B
("goal_2_1", created at 1), both dependency-free. -/
def c2_gmAB : GoalManager :=
  (create_goal (create_goal emptyGM .market_analysis "goal A" 1 none [] [] []
    0).2 .learning "goal B" 1 none [] [] [] 1).2

/-- The stored goal A of the dependency scenario. -/
def c2_gA : Goal :=
  (create_goal emptyGM .market_analysis "goal A" 1 none [] [] [] 0).1

/-- The stored goal B of the dependency scenario. -/
def c2_gB : Goal :=
  (create_goal (create_goal emptyGM .market_analysis "goal A" 1 none [] [] []
    0).2 .learning "goal B" 1 none [] [] [] 1).1

/-- Witness for C2_dependency_activation on the concrete two-goal manager. -/
theorem C2_dependency_activation_witness :
    let nid := freshId c2_gmAB 2
    let r := create_goal c2_gmAB .portfolio_management "goal C" 1 none
      ["goal_1_0", "goal_2_1"] [] [] 2
    let gm1 := r.2
    let gm2 := stateOf (complete_goal gm1 "goal_1_0") gm1
    let gm3 := stateOf (complete_goal gm2 "goal_2_1") gm2
    r.1.status = .pending ∧
    gm1.goals.lookup nid = some r.1 ∧
    (complete_goal gm1 "goal_1_0").isOk = true ∧
    (gm2.goals.lookup nid).map Goal.status = some .pending ∧
    (gm2.goals.lookup nid).map Goal.dependencies = some ["goal_2_1"] ∧
    (complete_goal gm2 "goal_2_1").isOk = true ∧
    (gm3.goals.lookup nid).map Goal.status = some .active ∧
    (gm3.goals.lookup nid).map Goal.dependencies = some ([] : List String) :=
  C2_dependency_activation c2_gmAB "goal_1_0" "goal_2_1" c2_gA c2_gB
    .portfolio_management "goal C" 1 none [] [] 2 (by decide) (by decide)
    (by decide) (by decide)

theorem checkDeps_active_of_none (m : List (String × Goal)) (g : Goal)
    (h : ∀ x ∈ g.dependencies, m.lookup x = none) : checkDeps m g = .active := by
  unfold checkDeps
  by_cases he : g.dependencies.isEmpty
  · rw [if_pos he]
  · rw [if_neg he, if_pos]
    exact List.all_eq_true.mpr (fun x hx => by rw [h x hx]; rfl)

/-- C10: failure does not cascade.  fail_goal(X) removes X from the
pending/active map without re-checking dependents: a goal d that already
listed X as a dependency keeps status pending and keeps X among its
dependencies (and, X being gone, no later complete_goal(X) can ever
re-trigger the check — it raises instead), while a goal created afterwards
with dependencies [X] is assigned status active immediately, because the
dependency check only tests membership of X in the current map. -/
theorem C10_fail_goal_asymmetry (gm : GoalManager) (X d : String)
    (gX gd : Goal) (reason : String) (goal_type : GoalType)
    (description : String) (priority : ℚ) (deadline : Option Nat)
    (success_criteria metadata : List (String × String)) (now' : Nat)
    (hX : gm.goals.lookup X = some gX) (hd : gm.goals.lookup d = some gd)
    (hdX : d ≠ X) (hdep : X ∈ gd.dependencies) (hstat : gd.status = .pending)
    (hnidX : freshId (stateOf (fail_goal gm X reason) gm) now' ≠ X) :
    let gmF := stateOf (fail_goal gm X reason) gm
    (fail_goal gm X reason).isOk = true ∧
    gmF.goals.lookup X = none ∧
    gmF.goals.lookup d = some gd ∧
    (gmF.goals.lookup d).map Goal.status = some .pending ∧
    (∀ g, gmF.goals.lookup d = some g → X ∈ g.dependencies) ∧
    complete_goal gmF X = .error ("Goal " ++ X ++ " not found") ∧
    (create_goal gmF goal_type description priority deadline [X]
      success_criteria metadata now').1.status = .active := by
  intro gmF
  have hfg : fail_goal gm X reason =
      .ok ({ gX with status := .failed, failure_reason := some reason },
        { gm with
          goals := dictRemove gm.goals X,
          failed_goals := gm.failed_goals ++
            [{ gX with status := .failed, failure_reason := some reason }] })
      := by
    simp only [fail_goal, hX]
  have hgmF : gmF = { gm with
      goals := dictRemove gm.goals X,
      failed_goals := gm.failed_goals ++
        [{ gX with status := .failed, failure_reason := some reason }] } := by
    have e : gmF = stateOf (fail_goal gm X reason) gm := rfl
    rw [e, hfg]
    rfl
  have hlX : gmF.goals.lookup X = none := by
    rw [hgmF]
    exact lookup_dictRemove_self _ _
  have hld : gmF.goals.lookup d = some gd := by
    rw [hgmF]
    exact (lookup_dictRemove_ne _ _ _ hdX).trans hd
  refine ⟨?_, hlX, hld, ?_, ?_, ?_, ?_⟩
  · rw [hfg]
    rfl
  · rw [hld]
    simp [hstat]
  · intro g hg
    rw [hld] at hg
    cases hg
    exact hdep
  · simp only [complete_goal, hlX]
  · show checkDeps
      (dictInsert gmF.goals (freshId gmF now') (mkGoal (freshId gmF now')
        goal_type description priority deadline [X] success_criteria metadata
        now'))
      (mkGoal (freshId gmF now') goal_type description priority deadline [X]
        success_criteria metadata now') = .active
    refine checkDeps_active_of_none _ _ ?_
    intro x hx
    have hxX : x = X := by simpa [mkGoal] using hx
    subst hxX
    rw [lookup_dictInsert_ne _ _ _ _ (Ne.symm hnidX)]
    exact hlX

/-- Manager for the failure scenario: independent goal X ("goal_1_0"),
plus goal d ("goal_2_1") depending on X, still pending. -/
def c10_gm : GoalManager :=
  (create_goal (create_goal emptyGM .market_analysis "goal X" 1 none [] [] []
    0).2 .learning "goal d" 1 none ["goal_1_0"] [] [] 1).2

/-- The stored goal X of the failure scenario. -/
def c10_gX : Goal :=
  (create_goal emptyGM .market_analysis "goal X" 1 none [] [] [] 0).1

/-- The stored dependent goal d of the failure scenario. -/
def c10_gd : Goal :=
  (create_goal (create_goal emptyGM .market_analysis "goal X" 1 none [] [] []
    0).2 .learning "goal d" 1 none ["goal_1_0"] [] [] 1).1

/-- Witness for C10_fail_goal_asymmetry at the concrete two-goal manager. -/
theorem C10_fail_goal_asymmetry_witness :
    let gmF := stateOf (fail_goal c10_gm "goal_1_0" "rpc down") c10_gm
    (fail_goal c10_gm "goal_1_0" "rpc down").isOk = true ∧
    gmF.goals.lookup "goal_1_0" = none ∧
    gmF.goals.lookup "goal_2_1" = some c10_gd ∧
    (gmF.goals.lookup "goal_2_1").map Goal.status = some .pending ∧
    (∀ g, gmF.goals.lookup "goal_2_1" = some g →
      "goal_1_0" ∈ g.dependencies) ∧
    complete_goal gmF "goal_1_0" =
      .error ("Goal " ++ "goal_1_0" ++ " not found") ∧
    (create_goal gmF .risk_management "goal h" 1 none ["goal_1_0"] [] []
      7).1.status = .active :=
  C10_fail_goal_asymmetry c10_gm "goal_1_0" "goal_2_1" c10_gX c10_gd
    "rpc down" .risk_management "goal h" 1 none [] [] 7 (by decide)
    (by decide) (by decide) (by decide) (by decide) (by decide)

end Goals

namespace Ctx

/-- Context categories (class ContextType in context.py). -/
inductive ContextType
  | market
  | social
  | system
  | user
  | transaction
  | analysis
deriving DecidableEq, Repr

/-- Dataclass Context. -/
structure Context where
  type : ContextType
  data : List (String × String)
  timestamp : Nat
  expires : Option Nat := none
  priority : ℚ := mkRat 1 2
deriving DecidableEq, Repr

/-- Dataclass Memory of context.py (distinct from the memory.py Memory). -/
structure CtxMemory where
  content : String
  context_type : ContextType
  timestamp : Nat
  importance : ℚ := mkRat 1 2
  metadata : List (String × String) := []
  references : List String := []
deriving DecidableEq, Repr

/-- State of ContextManager.  current_context is a dict keyed by the finite
ContextType enum, modelled as a total function into Option. -/
structure ContextManager where
  memory_limit : Nat
  context_ttl : Nat
  current_context : ContextType → Option Context
  memory_store : List CtxMemory
  context_history : List Context

/-- ContextManager._clean_expired_contexts: drop every current context whose
expires lies strictly in the past (expires < now). -/
def clean_expired (cm : ContextManager) (now : Nat) : ContextManager :=
  { cm with
    current_context := fun t =>
      match cm.current_context t with
      | none => none
      | some c =>
        match c.expires with
        | none => some c
        | some e => if e < now then none else some c }

/-- ContextManager.add_context.  Python's `if ttl:` / `elif self.context_ttl:`
treats both None and 0 as falsy, hence the explicit zero tests. -/
def add_context (cm : ContextManager) (context_type : ContextType)
    (data : List (String × String)) (priority : ℚ) (ttl : Option Nat)
    (now : Nat) : Context × ContextManager :=
  let expires : Option Nat :=
    match ttl with
    | some t =>
      if t ≠ 0 then some (now + t)
      else if cm.context_ttl ≠ 0 then some (now + cm.context_ttl) else none
    | none =>
      if cm.context_ttl ≠ 0 then some (now + cm.context_ttl) else none
  let ctx : Context :=
    { type := context_type, data := data, timestamp := now,
      expires := expires, priority := priority }
  let cm1 := { cm with
    current_context := fun t =>
      if t = context_type then some ctx else cm.current_context t,
    context_history := cm.context_history ++ [ctx] }
  (ctx, clean_expired cm1 now)

/-- ContextManager.get_context: absent when no context of the type is stored;
lazily deletes and reports absent when `expires < now`; otherwise returns the
stored context (note the STRICT comparison: a context queried exactly at its
expiry instant is still returned). -/
def get_context (cm : ContextManager) (context_type : ContextType)
    (now : Nat) : Option Context × ContextManager :=
  match cm.current_context context_type with
  | none => (none, cm)
  | some c =>
    match c.expires with
    | none => (some c, cm)
    | some e =>
      if e < now then
        (none, { cm with
          current_context := fun t =>
            if t = context_type then none else cm.current_context t })
      else (some c, cm)

/-- ContextManager.get_context_history: read-only filter/slice of the log.
Python's `if limit:` treats 0 as falsy, so limit 0 returns everything. -/
def get_context_history (cm : ContextManager)
    (context_type : Option ContextType) (limit : Option Nat) : List Context :=
  let history :=
    match context_type with
    | some ct => cm.context_history.filter (fun c => c.type == ct)
    | none => cm.context_history
  match limit with
  | some l =>
    if l ≠ 0 then history.drop (history.length - l) else history
  | none => history

/-- Arguments of one add_context call, for stating trace properties. -/
structure AddCall where
  context_type : ContextType
  data : List (String × String)
  priority : ℚ
  ttl : Option Nat
  now : Nat

/-- A sequence of add_context calls. -/
def addMany (cm : ContextManager) (calls : List AddCall) : ContextManager :=
  calls.foldl
    (fun acc c =>
      (add_context acc c.context_type c.data c.priority c.ttl c.now).2) cm

/-- Empty ContextManager with the given configuration. -/
def emptyCM (memory_limit context_ttl : Nat) : ContextManager :=
  { memory_limit := memory_limit, context_ttl := context_ttl,
    current_context := fun _ => none, memory_store := [],
    context_history := [] }

/-- The context stored by the expiry scenario: added at time 0 with ttl 10,
so expires = 10. -/
def c5_ctx : Context :=
  (add_context (emptyCM 1000 3600) .market [("phase", "bull")] 1 (some 10)
    0).1

/-- Manager state right after the expiry-scenario add. -/
def c5_cm1 : ContextManager :=
  (add_context (emptyCM 1000 3600) .market [("phase", "bull")] 1 (some 10)
    0).2

/-- C5 counterexample: a context added at time 0 with ttl = 10 expires at 10,
yet the query at time exactly add_time + ttl = 10 still RETURNS it, because
get_context only discards a context when `expires < now` holds strictly.
The claim demands absent at every time >= add_time + T. -/
theorem C5_counterexample :
    c5_ctx.expires = some 10 ∧
    (get_context c5_cm1 .market 10).1 = some c5_ctx := by
  constructor
  · rfl
  · rfl

/-- C5 amended: a context added with ttl = T > 0 at time `now` is returned
by get_context for every query time t <= now + T (including the boundary
t = now + T), and is absent for every query time t > now + T.  The boundary
behaviour differs from the claim: the expiry comparison in the source is
strict (`expires < now`). -/
theorem C5_context_expiry (cm : ContextManager) (context_type : ContextType)
    (data : List (String × String)) (priority : ℚ) (T now t : Nat)
    (hT : 0 < T) :
    let r := add_context cm context_type data priority (some T) now
    (t ≤ now + T → (get_context r.2 context_type t).1 = some r.1) ∧
    (now + T < t → (get_context r.2 context_type t).1 = none) := by
  intro r
  have hT0 : T ≠ 0 := hT.ne'
  have hexp : r.1.expires = some (now + T) := by
    show (add_context cm context_type data priority (some T) now).1.expires =
      some (now + T)
    simp [add_context, hT0]
  have hnow : ¬ (now + T < now) := by omega
  have hcur : r.2.current_context context_type = some r.1 := by
    show (add_context cm context_type data priority (some T)
      now).2.current_context context_type = some
      (add_context cm context_type data priority (some T) now).1
    simp [add_context, clean_expired, hT0, hnow]
  constructor
  · intro ht
    simp only [get_context, hcur, hexp]
    rw [if_neg (by omega)]
  · intro ht
    simp only [get_context, hcur, hexp]
    rw [if_pos (by omega)]

/-- Witness for C5_context_expiry at the boundary instant t = now + T. -/
theorem C5_context_expiry_witness :
    let r := add_context (emptyCM 1000 3600) .market [("phase", "bull")] 1
      (some 10) 0
    ((10 : Nat) ≤ 0 + 10 → (get_context r.2 .market 10).1 = some r.1) ∧
    (0 + 10 < (10 : Nat) → (get_context r.2 .market 10).1 = none) :=
  C5_context_expiry (emptyCM 1000 3600) .market [("phase", "bull")] 1 10 0 10
    (by decide)

/-- Manager configured with memory_limit = 1 and context_ttl = 1, after two
add_context calls. -/
def c9_cm2 : ContextManager :=
  (add_context (add_context (emptyCM 1 1) .market [] 1 none 0).2 .social []
    1 none 1).2

/-- C9 counterexample: no code path bounds context_history.  With every
configured limit of the manager equal to 1 (memory_limit = 1, and the only
other configured number, context_ttl, also 1), two add_context calls leave a
history of length 2, exceeding the configured bound; the history grows by one
entry per call without any truncation. -/
theorem C9_counterexample :
    c9_cm2.context_history.length = 2 ∧
    c9_cm2.memory_limit = 1 ∧
    c9_cm2.context_ttl = 1 := by
  refine ⟨rfl, rfl, rfl⟩

/-- C9 amended: the context history log is append-only — every add_context
appends exactly one entry and no operation rewrites an existing entry (the
prefix written so far is preserved by any sequence of further adds) — but it
is NOT bounded: after n add_context calls its length is exactly the initial
length plus n. -/
theorem C9_history_append_only (cm : ContextManager) (calls : List AddCall)
    (context_type : ContextType) (data : List (String × String))
    (priority : ℚ) (ttl : Option Nat) (now : Nat) :
    (add_context cm context_type data priority ttl now).2.context_history =
      cm.context_history ++
        [(add_context cm context_type data priority ttl now).1] ∧
    (addMany cm calls).context_history.length =
      cm.context_history.length + calls.length ∧
    (addMany cm calls).context_history.take cm.context_history.length =
      cm.context_history := by
  refine ⟨rfl, ?_, ?_⟩
  · induction calls generalizing cm with
    | nil => simp [addMany]
    | cons c cs ih =>
      have hstep : addMany cm (c :: cs) =
          addMany (add_context cm c.context_type c.data c.priority c.ttl
            c.now).2 cs := rfl
      rw [hstep, ih]
      have : (add_context cm c.context_type c.data c.priority c.ttl
          c.now).2.context_history.length = cm.context_history.length + 1 := by
        show (cm.context_history ++ [_]).length = cm.context_history.length + 1
        simp
      rw [this]
      simp [List.length_cons]
      omega
  · induction calls generalizing cm with
    | nil => simp [addMany]
    | cons c cs ih =>
      have hstep : addMany cm (c :: cs) =
          addMany (add_context cm c.context_type c.data c.priority c.ttl
            c.now).2 cs := rfl
      rw [hstep]
      have hlen : (add_context cm c.context_type c.data c.priority c.ttl
          c.now).2.context_history = cm.context_history ++
            [(add_context cm c.context_type c.data c.priority c.ttl
              c.now).1] := rfl
      have hih := ih (add_context cm c.context_type c.data c.priority c.ttl
        c.now).2
      rw [hlen] at hih
      have hmin : cm.context_history.length =
          min cm.context_history.length
            (cm.context_history ++
              [(add_context cm c.context_type c.data c.priority c.ttl
                c.now).1]).length := by
        simp
      rw [show (addMany (add_context cm c.context_type c.data c.priority
          c.ttl c.now).2 cs).context_history.take cm.context_history.length =
          ((addMany (add_context cm c.context_type c.data c.priority c.ttl
            c.now).2 cs).context_history.take
            (cm.context_history ++
              [(add_context cm c.context_type c.data c.priority c.ttl
                c.now).1]).length).take cm.context_history.length from by
        rw [List.take_take]
        congr 1]
      rw [hih]
      exact List.take_left' rfl

end Ctx

namespace Mem

/-- Memory store categories (class MemoryType in memory.py). -/
inductive MemoryType
  | short_term
  | long_term
  | working
  | episodic
  | semantic
deriving DecidableEq, Repr

/-- Priority levels (class MemoryPriority). -/
inductive MemoryPriority
  | low
  | medium
  | high
  | critical
deriving DecidableEq, Repr

/-- The numeric .value of each MemoryPriority enum member. -/
def MemoryPriority.value : MemoryPriority → Nat
  | .low => 0
  | .medium => 1
  | .high => 2
  | .critical => 3

/-- Dataclass Memory of memory.py.  The Python default decay_rate = 0.1 is
the rational 1/10. -/
structure Memory where
  content : String
  type : MemoryType
  priority : MemoryPriority
  timestamp : Nat
  tags : List String
  metadata : List (String × String)
  access_count : Nat := 0
  last_accessed : Option Nat := none
  decay_rate : ℚ := mkRat 1 10
deriving DecidableEq, Repr

/-- State of MemoryManager: per-type stores and the tag index, both dicts
modelled as total functions (a tag absent from the index carries []). -/
structure MemoryManager where
  short_term_limit : Nat
  long_term_limit : Nat
  decay_interval : Nat
  memories : MemoryType → List Memory
  index : String → List Memory

/-- The sort key used by _enforce_memory_limits:
(priority.value, access_count, timestamp.timestamp()). -/
def sortKey (m : Memory) : Nat × Nat × Nat :=
  (m.priority.value, m.access_count, m.timestamp)

/-- Lexicographic comparison of sort keys, i.e. Python tuple comparison. -/
def KeyLE (a b : Memory) : Prop :=
  a.priority.value < b.priority.value ∨
    (a.priority.value = b.priority.value ∧
      (a.access_count < b.access_count ∨
        (a.access_count = b.access_count ∧ a.timestamp ≤ b.timestamp)))

instance : DecidableRel KeyLE := fun a b => by
  unfold KeyLE
  exact inferInstance

theorem keyLE_total (a b : Memory) : KeyLE a b ∨ KeyLE b a := by
  unfold KeyLE
  omega

theorem keyLE_trans (a b c : Memory) (h1 : KeyLE a b) (h2 : KeyLE b c) :
    KeyLE a c := by
  unfold KeyLE at h1 h2 ⊢
  omega

instance : IsTotal Memory KeyLE := ⟨keyLE_total⟩

instance : IsTrans Memory KeyLE := ⟨fun a b c => keyLE_trans a b c⟩

/-- Inner loop of the index cleanup in _enforce_memory_limits for one evicted
memory: for each of its tags, remove it (once per tag occurrence) from that
tag's index list; `if memory in index[tag]: remove` is exactly erase. -/
def purgeOne (idx : String → List Memory) (m : Memory) :
    String → List Memory :=
  m.tags.foldl
    (fun acc tag => fun t => if t = tag then (acc t).erase m else acc t) idx

/-- Index cleanup of _enforce_memory_limits over all evicted memories. -/
def purgeIndex (idx : String → List Memory) (removed : List Memory) :
    String → List Memory :=
  removed.foldl purgeOne idx

/-- Shared body of _enforce_memory_limits once the limit for the store is
known: when over the limit, sort ascending by (priority, access_count,
timestamp) — Python's stable list.sort, modelled by the stable insertion
sort — keep the slice memories[-limit:] and purge memories[:-limit] from the
tag index.  For limit = 0 Python's slices [:-0] and [-0:] degenerate to
"remove nothing, keep everything". -/
def keptSlice (ms : List Memory) (limit : Nat) : List Memory :=
  if limit = 0 then List.insertionSort KeyLE ms
  else (List.insertionSort KeyLE ms).drop (ms.length - limit)

def removedSlice (ms : List Memory) (limit : Nat) : List Memory :=
  if limit = 0 then [] else (List.insertionSort KeyLE ms).take (ms.length - limit)

def enforceWith (mm : MemoryManager) (memory_type : MemoryType) (limit : Nat) :
    MemoryManager :=
  if limit < (mm.memories memory_type).length then
    { mm with
      memories := fun t =>
        if t = memory_type then keptSlice (mm.memories memory_type) limit
        else mm.memories t,
      index := purgeIndex mm.index
        (removedSlice (mm.memories memory_type) limit) }
  else mm

/-- MemoryManager._enforce_memory_limits: short- and long-term stores are
bounded by their configured limits; other types are left alone. -/
def enforce_memory_limits (mm : MemoryManager) (memory_type : MemoryType) :
    MemoryManager :=
  match memory_type with
  | .short_term => enforceWith mm .short_term mm.short_term_limit
  | .long_term => enforceWith mm .long_term mm.long_term_limit
  | _ => mm

/-- The Memory(...) constructor call inside store_memory. -/
def mkStored (content : String) (memory_type : MemoryType)
    (priority : MemoryPriority) (tags : List String)
    (metadata : List (String × String)) (now : Nat) : Memory :=
  { content := content, type := memory_type, priority := priority,
    timestamp := now, tags := tags, metadata := metadata, access_count := 0,
    last_accessed := some now }

/-- MemoryManager.store_memory: append to the target store, index the memory
under each of its tags (once per tag occurrence), then enforce the limit of
the target store. -/
def store_memory (mm : MemoryManager) (content : String)
    (memory_type : MemoryType) (priority : MemoryPriority)
    (tags : List String) (metadata : List (String × String)) (now : Nat) :
    Memory × MemoryManager :=
  let m := mkStored content memory_type priority tags metadata now
  let mm1 := { mm with
    memories := fun t =>
      if t = memory_type then mm.memories t ++ [m] else mm.memories t,
    index := tags.foldl
      (fun acc tag => fun t => if t = tag then acc t ++ [m] else acc t)
      mm.index }
  (m, enforce_memory_limits mm1 memory_type)

/-- MemoryManager.retrieve_by_tags.  The Python implementation builds
`matching_memories = set()` and calls
`matching_memories.update(self.index[tag])` for each queried tag present in
the index.  Memory is a `@dataclass` with the default `eq=True`,
`frozen=False`, so its `__hash__` is None and instances are unhashable: the
first update over a non-empty index entry raises
TypeError("unhashable type: 'Memory'"), re-raised by the method's broad
except.  The call therefore returns [] when every queried tag has an empty
(or missing) index entry, and raises otherwise — the filter, the sort by
(priority desc, timestamp desc) and the access-count bookkeeping further down
the method body are unreachable for any non-trivial query. -/
def retrieve_by_tags (mm : MemoryManager) (tags : List String)
    (memory_type : Option MemoryType) (limit : Option Nat) :
    Except String (List Memory × MemoryManager) :=
  if tags.all (fun t => mm.index t = []) then .ok ([], mm)
  else .error "TypeError: unhashable type: Memory"

/-- MemoryManager._should_consolidate: critical memories never consolidate;
otherwise a memory older than decay_interval consolidates when it was never
accessed or its access rate access_count / (age / decay_interval) is below
0.1. -/
def should_consolidate (mm : MemoryManager) (m : Memory) (now : Nat) : Bool :=
  let age : ℤ := (now : ℤ) - (m.timestamp : ℤ)
  if m.priority = .critical then false
  else if (mm.decay_interval : ℤ) < age then
    if m.access_count = 0 then true
    else decide ((m.access_count : ℚ) /
      ((age : ℚ) / (mm.decay_interval : ℚ)) < mkRat 1 10)
  else false

/-- MemoryManager.consolidate_memories: no-op for long_term; otherwise move
every qualifying memory (retyped to long_term) from the source store to the
long-term store, then enforce the long-term limit.  The Python
remove-by-equality loop removes exactly the moved objects, i.e. acts as a
filter on the source store. -/
def consolidate_memories (mm : MemoryManager) (memory_type : MemoryType)
    (now : Nat) : MemoryManager :=
  if memory_type = .long_term then mm
  else
    let src := mm.memories memory_type
    let moved := (src.filter (fun m => should_consolidate mm m now)).map
      (fun m => { m with type := MemoryType.long_term })
    let mm1 := { mm with
      memories := fun t =>
        if t = memory_type then
          src.filter (fun m => !(should_consolidate mm m now))
        else if t = MemoryType.long_term then
          mm.memories MemoryType.long_term ++ moved
        else mm.memories t }
    enforce_memory_limits mm1 .long_term

/-- Arguments of one short-term store_memory call. -/
structure StoreCall where
  content : String
  priority : MemoryPriority
  tags : List String
  metadata : List (String × String)
  now : Nat

/-- The memory a short-term StoreCall creates. -/
def mkMemory (c : StoreCall) : Memory :=
  mkStored c.content .short_term c.priority c.tags c.metadata c.now

/-- A sequence of short-term store_memory calls. -/
def storeMany (mm : MemoryManager) (calls : List StoreCall) : MemoryManager :=
  calls.foldl
    (fun acc c =>
      (store_memory acc c.content .short_term c.priority c.tags c.metadata
        c.now).2) mm

/-- Empty MemoryManager with the given configuration. -/
def emptyMM (short_term_limit long_term_limit decay_interval : Nat) :
    MemoryManager :=
  { short_term_limit := short_term_limit,
    long_term_limit := long_term_limit,
    decay_interval := decay_interval,
    memories := fun _ => [], index := fun _ => [] }

theorem enforce_long_eq (mm : MemoryManager) :
    enforce_memory_limits mm .long_term =
      enforceWith mm .long_term mm.long_term_limit := rfl

theorem enforceWith_of_le (mm : MemoryManager) (mt : MemoryType)
    (limit : Nat) (h : (mm.memories mt).length ≤ limit) :
    enforceWith mm mt limit = mm := by
  unfold enforceWith
  rw [if_neg (by omega)]

theorem enforceWith_memories_other (mm : MemoryManager) (mt : MemoryType)
    (limit : Nat) (t : MemoryType) (ht : t ≠ mt) :
    (enforceWith mm mt limit).memories t = mm.memories t := by
  unfold enforceWith
  by_cases hc : limit < (mm.memories mt).length
  · rw [if_pos hc]
    simp [ht]
  · rw [if_neg hc]

/-- C8: the consolidation predicate.  consolidate_memories(long_term) is a
no-op; consolidate_memories(short_term) removes a memory from the short-term
store if and only if priority is not critical AND age exceeds decay_interval
AND (access_count = 0 OR access rate below 0.1); the qualifying memories,
retyped to long_term, are appended to the long-term store (shown here under
the side condition that the long-term limit is not exceeded, in which case
the subsequent capacity enforcement is the identity). -/
theorem C8_consolidation (mm : MemoryManager) (now : Nat)
    (hdi : 0 < mm.decay_interval) :
    consolidate_memories mm .long_term now = mm ∧
    ((consolidate_memories mm .short_term now).memories .short_term =
      (mm.memories .short_term).filter
        (fun m => !(should_consolidate mm m now))) ∧
    (∀ m ∈ mm.memories .short_term,
      (m ∉ (consolidate_memories mm .short_term now).memories .short_term ↔
        should_consolidate mm m now = true)) ∧
    (∀ m : Memory,
      (should_consolidate mm m now = true ↔
        (m.priority ≠ .critical ∧
          (mm.decay_interval : ℤ) < (now : ℤ) - (m.timestamp : ℤ) ∧
          (m.access_count = 0 ∨
            (m.access_count : ℚ) /
              ((((now : ℤ) - (m.timestamp : ℤ)) : ℚ) /
                (mm.decay_interval : ℚ)) < mkRat 1 10)))) ∧
    ((mm.memories .long_term).length +
        ((mm.memories .short_term).filter
          (fun m => should_consolidate mm m now)).length ≤
        mm.long_term_limit →
      (consolidate_memories mm .short_term now).memories .long_term =
        mm.memories .long_term ++
          ((mm.memories .short_term).filter
            (fun m => should_consolidate mm m now)).map
            (fun m => { m with type := MemoryType.long_term })) := by
  have hshort : (consolidate_memories mm .short_term now).memories
      .short_term = (mm.memories .short_term).filter
        (fun m => !(should_consolidate mm m now)) := by
    unfold consolidate_memories
    rw [if_neg (by decide : ¬ (MemoryType.short_term = MemoryType.long_term))]
    rw [enforce_long_eq, enforceWith_memories_other _ _ _ _ (by decide)]
    simp
  refine ⟨?_, hshort, ?_, ?_, ?_⟩
  · unfold consolidate_memories
    rw [if_pos rfl]
  · intro m hm
    rw [hshort]
    simp only [List.mem_filter, Bool.not_eq_true', not_and]
    constructor
    · intro h
      have := h hm
      simpa using this
    · intro h _
      simp [h]
  · intro m
    unfold should_consolidate
    by_cases h1 : m.priority = .critical
    · simp [h1]
    · rw [if_neg h1]
      by_cases h2 : (mm.decay_interval : ℤ) < (now : ℤ) - (m.timestamp : ℤ)
      · rw [if_pos h2]
        by_cases h3 : m.access_count = 0
        · simp [h1, h2, h3]
        · rw [if_neg h3]
          simp [h1, h2, h3]
      · rw [if_neg h2]
        simp [h2]
  · intro hlen
    unfold consolidate_memories
    rw [if_neg (by decide : ¬ (MemoryType.short_term = MemoryType.long_term))]
    rw [enforce_long_eq, enforceWith_of_le]
    · simp
    · simp only [MemoryManager.memories, List.length_append, List.length_map]
      simp
      omega

/-- Old, never-accessed short-term memory of the consolidation scenario. -/
def c8_mOld : Memory :=
  { content := "sol dip", type := .short_term, priority := .low,
    timestamp := 0, tags := ["sol"], metadata := [] }

/-- Fresh short-term memory of the consolidation scenario. -/
def c8_mNew : Memory :=
  { content := "sol pump", type := .short_term, priority := .low,
    timestamp := 3900, tags := ["sol"], metadata := [] }

/-- Critical short-term memory of the consolidation scenario. -/
def c8_mCrit : Memory :=
  { content := "treasury keys", type := .short_term, priority := .critical,
    timestamp := 0, tags := ["sys"], metadata := [] }

/-- Manager of the consolidation scenario (decay_interval 3600). -/
def c8_mm : MemoryManager :=
  { short_term_limit := 100, long_term_limit := 1000, decay_interval := 3600,
    memories := fun t =>
      if t = MemoryType.short_term then [c8_mOld, c8_mNew, c8_mCrit] else [],
    index := fun _ => [] }

/-- Witness for C8_consolidation at a concrete three-memory manager queried
at time 4000. -/
theorem C8_consolidation_witness :
    consolidate_memories c8_mm .long_term 4000 = c8_mm ∧
    ((consolidate_memories c8_mm .short_term 4000).memories .short_term =
      (c8_mm.memories .short_term).filter
        (fun m => !(should_consolidate c8_mm m 4000))) ∧
    (∀ m ∈ c8_mm.memories .short_term,
      (m ∉ (consolidate_memories c8_mm .short_term 4000).memories
          .short_term ↔
        should_consolidate c8_mm m 4000 = true)) ∧
    (∀ m : Memory,
      (should_consolidate c8_mm m 4000 = true ↔
        (m.priority ≠ .critical ∧
          (c8_mm.decay_interval : ℤ) < (4000 : ℤ) - (m.timestamp : ℤ) ∧
          (m.access_count = 0 ∨
            (m.access_count : ℚ) /
              ((((4000 : ℤ) - (m.timestamp : ℤ)) : ℚ) /
                (c8_mm.decay_interval : ℚ)) < mkRat 1 10)))) ∧
    ((c8_mm.memories .long_term).length +
        ((c8_mm.memories .short_term).filter
          (fun m => should_consolidate c8_mm m 4000)).length ≤
        c8_mm.long_term_limit →
      (consolidate_memories c8_mm .short_term 4000).memories .long_term =
        c8_mm.memories .long_term ++
          ((c8_mm.memories .short_term).filter
            (fun m => should_consolidate c8_mm m 4000)).map
            (fun m => { m with type := MemoryType.long_term })) :=
  C8_consolidation c8_mm 4000 (by decide)

/-- Tag-retrieval scenario: three memories all tagged "market", stored with
priorities low, high, medium at timestamps 0 < 1 < 2, under the default
limits. -/
def c4_mm : MemoryManager :=
  storeMany (emptyMM 100 1000 3600)
    [⟨"btc flat", .low, ["market"], [], 0⟩,
     ⟨"btc breakout", .high, ["market"], [], 1⟩,
     ⟨"btc chop", .medium, ["market"], [], 2⟩]

/-- C4: after the three stores the "market" index entry holds all three
memories in store order, and retrieve_by_tags(["market"]) raises
TypeError("unhashable type: 'Memory'") instead of returning the ordered list
[high, medium, low]: the method collects matches into a Python set, and the
non-frozen eq dataclass Memory is unhashable. -/
theorem C4_retrieve_by_tags_raises :
    (c4_mm.index "market").map Memory.priority =
      [.low, .high, .medium] ∧
    (c4_mm.memories .short_term).length = 3 ∧
    retrieve_by_tags c4_mm ["market"] none none =
      .error "TypeError: unhashable type: Memory" := by
  refine ⟨rfl, rfl, rfl⟩

theorem count_storeFold (tags : List String) (idx : String → List Memory)
    (m0 : Memory) (t : String) (m : Memory) :
    ((tags.foldl
        (fun acc tag => fun u => if u = tag then acc u ++ [m0] else acc u)
        idx) t).count m =
      (idx t).count m + (if m = m0 then tags.count t else 0) := by
  induction tags generalizing idx with
  | nil => simp
  | cons a rest ih =>
    rw [List.foldl_cons, ih]
    by_cases hta : t = a
    · subst hta
      by_cases hm : m = m0
      · simp [hm, List.count_cons]
        omega
      · simp [hm]
    · by_cases hm : m = m0
      · simp [hm, hta, List.count_cons, beq_false_of_ne hta,
          beq_false_of_ne (Ne.symm hta)]
      · simp [hm, hta]

theorem count_purgeOne (d : Memory) (idx : String → List Memory) (t : String)
    (m : Memory) :
    ((purgeOne idx d) t).count m =
      (idx t).count m - (if m = d then d.tags.count t else 0) := by
  unfold purgeOne
  generalize d.tags = dtags
  induction dtags generalizing idx with
  | nil => simp
  | cons a rest ih =>
    rw [List.foldl_cons, ih]
    by_cases hta : t = a
    · subst hta
      by_cases hm : m = d
      · subst hm
        simp [List.count_erase_self, List.count_cons]
        omega
      · simp [hm, List.count_erase_of_ne hm]
    · by_cases hm : m = d
      · subst hm
        simp [hta, List.count_cons, beq_false_of_ne hta,
          beq_false_of_ne (Ne.symm hta)]
      · simp [hm, hta]

/-- Intermediate manager state inside store_memory for a short-term store:
memory appended, tag index updated, limits not yet enforced. -/
def storeMid (mm : MemoryManager) (c : StoreCall) : MemoryManager :=
  { mm with
    memories := fun t =>
      if t = MemoryType.short_term then mm.memories t ++ [mkMemory c]
      else mm.memories t,
    index := c.tags.foldl
      (fun acc tag => fun t => if t = tag then acc t ++ [mkMemory c]
        else acc t)
      mm.index }

theorem store_short_eq (mm : MemoryManager) (c : StoreCall) :
    (store_memory mm c.content .short_term c.priority c.tags c.metadata
      c.now).2 =
      enforceWith (storeMid mm c) .short_term mm.short_term_limit := rfl

theorem storeMid_short (mm : MemoryManager) (c : StoreCall) :
    (storeMid mm c).memories .short_term =
      mm.memories .short_term ++ [mkMemory c] := by
  simp [storeMid]

theorem storeMid_count_index (mm : MemoryManager) (c : StoreCall)
    (t : String) (m : Memory) :
    ((storeMid mm c).index t).count m =
      (mm.index t).count m +
        (if m = mkMemory c then c.tags.count t else 0) :=
  count_storeFold c.tags mm.index (mkMemory c) t m

theorem count_append_single (l : List Memory) (m0 m : Memory) :
    (l ++ [m0]).count m = l.count m + (if m = m0 then 1 else 0) := by
  by_cases hm : m = m0
  · simp [hm]
  · simp [hm]

theorem enforceWith_over (mm : MemoryManager) (limit : Nat)
    (hlim : 0 < limit)
    (hover : limit < (mm.memories .short_term).length) :
    (enforceWith mm .short_term limit).memories .short_term =
      (List.insertionSort KeyLE (mm.memories .short_term)).drop
        ((mm.memories .short_term).length - limit) ∧
    (enforceWith mm .short_term limit).index =
      purgeIndex mm.index
        ((List.insertionSort KeyLE (mm.memories .short_term)).take
          ((mm.memories .short_term).length - limit)) ∧
    (enforceWith mm .short_term limit).short_term_limit =
      mm.short_term_limit := by
  unfold enforceWith
  rw [if_pos hover]
  refine ⟨?_, ?_, rfl⟩
  · simp [keptSlice, hlim.ne']
  · simp [removedSlice, hlim.ne']

theorem purgeIndex_single (idx : String → List Memory) (d : Memory) :
    purgeIndex idx [d] = purgeOne idx d := rfl

/-- The preservation invariant for a sequence of short-term stores: if the
sequence so far fits the limit the store is exactly the sequence; the store's
length is min(#stored, limit); the store is a sub-multiset of everything
stored; every memory missing a copy from the store is below (in eviction
order) every retained memory; and each tag's index entry holds each memory
exactly (tag multiplicity x retained multiplicity) times — in particular an
evicted memory is gone from every index entry. -/
def shortInv (mm : MemoryManager) (stored : List Memory) : Prop :=
  (stored.length ≤ mm.short_term_limit →
    mm.memories .short_term = stored) ∧
  (mm.memories .short_term).length = min stored.length mm.short_term_limit ∧
  (∀ m : Memory, (mm.memories .short_term).count m ≤ stored.count m) ∧
  (∀ m : Memory, (mm.memories .short_term).count m < stored.count m →
    ∀ x ∈ mm.memories .short_term, KeyLE m x) ∧
  (∀ t : String, ∀ m : Memory,
    (mm.index t).count m = m.tags.count t * (mm.memories .short_term).count m)

theorem mul_sub_one (T a : Nat) : T * (a - 1) = T * a - T := by
  cases a with
  | zero => simp
  | succ b => rw [Nat.succ_sub_one, Nat.mul_succ, Nat.add_sub_cancel]

theorem shortInv_step (mm : MemoryManager) (stored : List Memory)
    (c : StoreCall) (hL : 1 ≤ mm.short_term_limit)
    (hInv : shortInv mm stored) :
    shortInv (store_memory mm c.content .short_term c.priority c.tags
      c.metadata c.now).2 (stored ++ [mkMemory c]) := by
  obtain ⟨i1, i2, i3, i4, i5⟩ := hInv
  rw [store_short_eq]
  have hmid : (storeMid mm c).memories .short_term =
      mm.memories .short_term ++ [mkMemory c] := storeMid_short mm c
  have hmidlim : (storeMid mm c).short_term_limit = mm.short_term_limit := rfl
  have htags : (mkMemory c).tags = c.tags := rfl
  by_cases hcase : (mm.memories .short_term).length + 1 ≤ mm.short_term_limit
  · have hno : enforceWith (storeMid mm c) .short_term mm.short_term_limit =
        storeMid mm c := by
      refine enforceWith_of_le _ _ _ ?_
      rw [hmid]
      simpa using hcase
    rw [hno]
    have hstored_lt : stored.length < mm.short_term_limit := by
      rcases le_or_lt mm.short_term_limit stored.length with h | h
      · rw [min_eq_right h] at i2
        omega
      · exact h
    have hcs : mm.memories .short_term = stored := i1 (by omega)
    refine ⟨?_, ?_, ?_, ?_, ?_⟩
    · intro _
      rw [hmidlim] at *
      rw [hmid, hcs]
    · rw [hmidlim, hmid, hcs]
      simp only [List.length_append, List.length_cons, List.length_nil]
      rw [min_eq_left (by omega)]
    · intro m
      rw [hmid, hcs]
    · intro m hlt x hx
      rw [hmid, hcs] at hlt
      exact absurd hlt (lt_irrefl _)
    · intro t m
      rw [storeMid_count_index, hmid, i5 t m, hcs, count_append_single]
      by_cases hm : m = mkMemory c
      · subst hm
        rw [htags]
        simp [Nat.mul_succ]
      · simp [hm]
  · -- the store exceeds the limit: one element is evicted
    have hcurlen : (mm.memories .short_term).length = mm.short_term_limit := by
      rcases le_or_lt mm.short_term_limit stored.length with h | h
      · rw [min_eq_right h] at i2
        exact i2
      · rw [min_eq_left (by omega)] at i2
        omega
    have hstored_ge : mm.short_term_limit ≤ stored.length := by
      by_contra h
      rw [min_eq_left (by omega)] at i2
      omega
    have hover : mm.short_term_limit <
        ((storeMid mm c).memories .short_term).length := by
      rw [hmid]
      simp only [List.length_append, List.length_cons, List.length_nil]
      omega
    obtain ⟨hkept, hidx, hlim⟩ :=
      enforceWith_over (storeMid mm c) mm.short_term_limit (by omega) hover
    have hdropn : ((storeMid mm c).memories .short_term).length -
        mm.short_term_limit = 1 := by
      rw [hmid]
      simp only [List.length_append, List.length_cons, List.length_nil]
      omega
    set sorted := List.insertionSort KeyLE
      ((storeMid mm c).memories .short_term) with hsorted_def
    have hperm : sorted.Perm ((storeMid mm c).memories .short_term) :=
      List.perm_insertionSort _ _
    have hsortlen : sorted.length = mm.short_term_limit + 1 := by
      rw [hperm.length_eq, hmid]
      simp only [List.length_append, List.length_cons, List.length_nil]
      omega
    obtain ⟨d, rest, hd⟩ : ∃ d rest, sorted = d :: rest := by
      cases hs : sorted with
      | nil =>
        rw [hs] at hsortlen
        simp at hsortlen
      | cons d rest => exact ⟨d, rest, rfl⟩
    have htake1 : sorted.take 1 = [d] := by rw [hd]; rfl
    have hdrop1 : sorted.drop 1 = rest := by rw [hd]; rfl
    have hkept' : (enforceWith (storeMid mm c) .short_term
        mm.short_term_limit).memories .short_term = rest := by
      rw [hkept, hdropn, hdrop1]
    have hidx' : (enforceWith (storeMid mm c) .short_term
        mm.short_term_limit).index = purgeOne ((storeMid mm c).index) d := by
      rw [hidx, hdropn, htake1, purgeIndex_single]
    have hrestlen : rest.length = mm.short_term_limit := by
      have : sorted.length = rest.length + 1 := by rw [hd]; rfl
      omega
    have hcount_sorted : ∀ m : Memory, sorted.count m =
        (mm.memories .short_term).count m + (if m = mkMemory c then 1
          else 0) := by
      intro m
      rw [hperm.count_eq, hmid, count_append_single]
    have hcount_rest : ∀ m : Memory, rest.count m =
        (mm.memories .short_term).count m +
          (if m = mkMemory c then 1 else 0) - (if m = d then 1 else 0) := by
      intro m
      have h1 : sorted.count m = rest.count m + (if m = d then 1 else 0) := by
        rw [hd, List.count_cons]
        by_cases hm : m = d
        · simp [hm]
        · simp [hm, Ne.symm hm]
      have h2 := hcount_sorted m
      omega
    have hsorted_sorted : List.Sorted KeyLE sorted :=
      List.sorted_insertionSort KeyLE _
    have hdom : ∀ x ∈ rest, KeyLE d x := by
      rw [hd] at hsorted_sorted
      exact fun x hx => (List.sorted_cons.mp hsorted_sorted).1 x hx
    have hmem_rest : ∀ x ∈ rest, x ∈ mm.memories .short_term ∨
        x = mkMemory c := by
      intro x hx
      have : x ∈ sorted := by
        rw [hd]
        exact List.mem_cons_of_mem d hx
      have := hperm.mem_iff.mp this
      rw [hmid] at this
      rcases List.mem_append.mp this with h | h
      · exact Or.inl h
      · exact Or.inr (by simpa using h)
    have hd_mem : d ∈ mm.memories .short_term ∨ d = mkMemory c := by
      have : d ∈ sorted := by
        rw [hd]
        exact List.mem_cons_self d rest
      have := hperm.mem_iff.mp this
      rw [hmid] at this
      rcases List.mem_append.mp this with h | h
      · exact Or.inl h
      · exact Or.inr (by simpa using h)
    refine ⟨?_, ?_, ?_, ?_, ?_⟩
    · intro hcontra
      rw [hlim] at hcontra
      simp only [List.length_append, List.length_cons, List.length_nil]
        at hcontra
      omega
    · rw [hlim, hmidlim, hkept', hrestlen]
      simp only [List.length_append, List.length_cons, List.length_nil]
      rw [min_eq_right (by omega)]
    · intro m
      rw [hkept', hcount_rest m, count_append_single]
      have := i3 m
      omega
    · intro m hlt x hx
      rw [hkept'] at hlt hx
      rw [hcount_rest m, count_append_single] at hlt
      by_cases hmdrop : (mm.memories .short_term).count m < stored.count m
      · have hold := i4 m hmdrop
        rcases hmem_rest x hx with hxc | hxm
        · exact hold x hxc
        · subst hxm
          rcases hd_mem with hdc | hdm
          · exact keyLE_trans _ _ _ (hold d hdc) (hdom _ hx)
          · have hcm : 0 < rest.count (mkMemory c) :=
              List.count_pos_iff.mpr hx
            rw [hcount_rest, hdm] at hcm
            simp only [if_pos rfl] at hcm
            have hmem : mkMemory c ∈ mm.memories .short_term := by
              rw [← List.count_pos_iff]
              omega
            exact hold _ hmem
      · have hmd : m = d := by
          by_contra hne
          simp only [if_neg hne] at hlt
          have := i3 m
          omega
        subst hmd
        exact hdom x hx
    · intro t m
      rw [hidx', count_purgeOne, storeMid_count_index, i5 t m, hkept',
        hcount_rest m]
      by_cases hm0 : m = mkMemory c
      · subst hm0
        by_cases hmd : mkMemory c = d
        · subst hmd
          simp only [if_pos rfl, htags, if_true]
          rw [Nat.add_sub_cancel, Nat.add_sub_cancel]
        · simp only [if_pos rfl, if_neg hmd, htags, if_true, Nat.sub_zero]
          rw [Nat.mul_succ]
      · by_cases hmd : m = d
        · subst hmd
          simp only [if_neg hm0, if_pos rfl, if_true, Nat.add_zero]
          rw [mul_sub_one]
        · simp only [if_neg hm0, if_neg hmd, Nat.add_zero, Nat.sub_zero]

theorem store_short_config (mm : MemoryManager) (c : StoreCall) :
    (store_memory mm c.content .short_term c.priority c.tags c.metadata
      c.now).2.short_term_limit = mm.short_term_limit := by
  rw [store_short_eq]
  unfold enforceWith
  split
  · rfl
  · rfl

theorem storeMany_config (calls : List StoreCall) (mm : MemoryManager) :
    (storeMany mm calls).short_term_limit = mm.short_term_limit := by
  induction calls generalizing mm with
  | nil => rfl
  | cons c cs ih =>
    have hstep : storeMany mm (c :: cs) =
        storeMany (store_memory mm c.content .short_term c.priority c.tags
          c.metadata c.now).2 cs := rfl
    rw [hstep, ih, store_short_config]

theorem shortInv_fold (calls : List StoreCall) (mm : MemoryManager)
    (stored : List Memory) (hL : 1 ≤ mm.short_term_limit)
    (hInv : shortInv mm stored) :
    shortInv (storeMany mm calls) (stored ++ calls.map mkMemory) := by
  induction calls generalizing mm stored with
  | nil => simpa [storeMany] using hInv
  | cons c cs ih =>
    have hstep : storeMany mm (c :: cs) =
        storeMany (store_memory mm c.content .short_term c.priority c.tags
          c.metadata c.now).2 cs := rfl
    rw [hstep]
    have hL' : 1 ≤ (store_memory mm c.content .short_term c.priority c.tags
        c.metadata c.now).2.short_term_limit := by
      rw [store_short_config]
      exact hL
    have hnext := ih _ (stored ++ [mkMemory c]) hL'
      (shortInv_step mm stored c hL hInv)
    simpa [List.append_assoc] using hnext

theorem shortInv_empty (L long_limit decay : Nat) :
    shortInv (emptyMM L long_limit decay) [] := by
  refine ⟨fun _ => rfl, by simp [emptyMM], fun m => le_refl _, ?_,
    fun t m => by simp [emptyMM]⟩
  intro m h
  simp [emptyMM] at h

/-- C3 amended (the claim restricted to limits L >= 1; for L = 0 the Python
slices memories[:-0] and [-0:] keep every memory, see C3_counterexample).
For every sequence of short-term store_memory calls against a manager
configured with short_term_limit = L >= 1: the short-term store holds
min(#calls, L) memories — never more than L; it is a sub-multiset of all
stored memories; any stored memory missing a copy from the store is <= every
retained memory in the eviction order (priority, access_count, timestamp) —
the retained set is exactly a top-L selection under (priority desc,
access_count desc, timestamp desc); and every tag's index entry holds exactly
the retained memories carrying that tag (evicted memories are removed from
every tag index entry). -/
theorem C3_memory_eviction (L long_limit decay : Nat) (hL : 1 ≤ L)
    (calls : List StoreCall) :
    let mm := storeMany (emptyMM L long_limit decay) calls
    ((mm.memories .short_term).length = min calls.length L) ∧
    (∀ m : Memory, (mm.memories .short_term).count m ≤
      (calls.map mkMemory).count m) ∧
    (∀ m : Memory, (mm.memories .short_term).count m <
        (calls.map mkMemory).count m →
      ∀ x ∈ mm.memories .short_term, KeyLE m x) ∧
    (∀ t : String, ∀ m : Memory, (mm.index t).count m =
      m.tags.count t * (mm.memories .short_term).count m) := by
  intro mm
  have hfold := shortInv_fold calls (emptyMM L long_limit decay) [] hL
    (shortInv_empty L long_limit decay)
  obtain ⟨j1, j2, j3, j4, j5⟩ := hfold
  rw [List.nil_append] at j2 j3 j4
  rw [storeMany_config] at j2
  refine ⟨?_, j3, j4, j5⟩
  rw [j2, List.length_map]
  rfl

/-- One short-term store against a manager configured with
short_term_limit = 0. -/
def c3_zero_call : StoreCall := ⟨"btc price", .high, ["market"], [], 5⟩

/-- C3 counterexample: with short_term_limit = 0, a single store — a
sequence whose length exceeds the limit — leaves ONE memory in the
short-term store, not at most 0: Python's eviction slices memories[:-limit]
and memories[-limit:] degenerate at limit = 0 to "remove nothing, keep
everything", so the claimed bound fails for the configured limit L = 0. -/
theorem C3_counterexample :
    (emptyMM 0 1000 3600).short_term_limit = 0 ∧
    ((storeMany (emptyMM 0 1000 3600) [c3_zero_call]).memories
      .short_term).length = 1 := by
  constructor
  · rfl
  · rfl

/-- The three-store sequence of the eviction witness. -/
def c3_calls : List StoreCall :=
  [⟨"btc flat", .low, ["market"], [], 0⟩,
   ⟨"btc breakout", .high, ["market"], [], 1⟩,
   ⟨"btc chop", .medium, ["market"], [], 2⟩]

/-- Witness for C3_memory_eviction: limit 2, three stores. -/
theorem C3_memory_eviction_witness :
    let mm := storeMany (emptyMM 2 1000 3600) c3_calls
    ((mm.memories .short_term).length = min c3_calls.length 2) ∧
    (∀ m : Memory, (mm.memories .short_term).count m ≤
      (c3_calls.map mkMemory).count m) ∧
    (∀ m : Memory, (mm.memories .short_term).count m <
        (c3_calls.map mkMemory).count m →
      ∀ x ∈ mm.memories .short_term, KeyLE m x) ∧
    (∀ t : String, ∀ m : Memory, (mm.index t).count m =
      m.tags.count t * (mm.memories .short_term).count m) :=
  C3_memory_eviction 2 1000 3600 (by decide) c3_calls

end Mem

namespace Learn

/-- Learning modes (class LearningType in learning.py). -/
inductive LearningType
  | reinforcement
  | supervised
  | unsupervised
  | transfer
deriving DecidableEq, Repr

/-- Experience categories (class ExperienceType). -/
inductive ExperienceType
  | type_a
  | type_b
  | type_c
deriving DecidableEq, Repr

/-- Class LearningExperience: it carries the attributes set by its
hand-written __init__, whose parameters (besides self) are exactly
(action, context, outcome, reward, learning_type); timestamp is set to now.
The @dataclass decorator adds nothing here: the class declares no annotated
fields and an explicitly defined __init__ is never overwritten. -/
structure LearningExperience where
  action : String
  context : List (String × String)
  outcome : String
  reward : ℚ
  learning_type : LearningType
  timestamp : Nat
deriving DecidableEq, Repr

/-- State set by LearningManager.__init__: experiences, performance_metrics
and the initialized flag (learning_models holds opaque placeholders).  No
`patterns` and no `performance_history` attribute is ever created, although
_analyze_pattern and the second _update_performance_metrics read them. -/
structure LearningManager where
  experiences : List LearningExperience
  performance_metrics : List (String × ℚ)
  initialized : Bool

/-- Parameter names of LearningExperience.__init__, besides self. -/
def learningExperienceParams : List String :=
  ["action", "context", "outcome", "reward", "learning_type"]

/-- Keyword arguments of the LearningExperience(...) call inside the
effective (second) definition of record_experience, lines 177-186. -/
def recordExperienceCallKwargs : List String :=
  ["type", "action", "context", "outcome", "timestamp", "success_score",
   "importance", "metadata"]

/-- CPython keyword-argument binding: a call raises TypeError at the first
keyword that is not a parameter of the callee. -/
def bindKwargs (params kwargs : List String) : Except String Unit :=
  match kwargs.find? (fun k => !(params.contains k)) with
  | some k => .error
      ("TypeError: __init__() got an unexpected keyword argument " ++ k)
  | none => .ok ()

/-- LearningManager.record_experience — the second definition of that name
in the class body, which shadows the first.  Its first statement constructs
LearningExperience(type=..., action=..., context=..., outcome=...,
timestamp=..., success_score=..., importance=..., metadata=...): none of
type / timestamp / success_score / importance / metadata is a parameter of
the hand-written __init__, so the constructor call raises TypeError before
any state is modified; the method's broad except logs and re-raises.  (Even
if construction succeeded, the following _analyze_pattern would hit the
never-initialized self.patterns.)  The ok branch is unreachable and keeps
the state unchanged. -/
def record_experience (lm : LearningManager) (exp_type : ExperienceType)
    (action : String) (context : List (String × String))
    (outcome : List (String × String)) (success_score : ℚ) (importance : ℚ)
    (now : Nat) : Except String LearningManager :=
  match bindKwargs learningExperienceParams recordExperienceCallKwargs with
  | .error e => .error e
  | .ok _ => .ok lm

/-- LearningManager._calculate_similarity: the matching coefficient — the
number of keys present in both dicts with equal values, divided by the size
of the union of the key sets, and 0.0 when the union is empty. -/
def similarity (context1 context2 : List (String × String)) : ℚ :=
  let total_keys := (context1.map Prod.fst).toFinset ∪
    (context2.map Prod.fst).toFinset
  let matching_values := (total_keys.filter (fun k =>
    (context1.lookup k).isSome ∧ (context2.lookup k).isSome ∧
      context1.lookup k = context2.lookup k)).card
  if total_keys = ∅ then 0
  else (matching_values : ℚ) / (total_keys.card : ℚ)

/-- C6: record_experience never returns an Experience and never updates the
(type, action) pattern aggregate: every call raises
TypeError("__init__() got an unexpected keyword argument 'type'"), because
the effective record_experience passes keyword arguments that
LearningExperience.__init__ (parameters: action, context, outcome, reward,
learning_type) does not accept. -/
theorem C6_record_experience_raises (lm : LearningManager)
    (exp_type : ExperienceType) (action : String)
    (context outcome : List (String × String))
    (success_score importance : ℚ) (now : Nat) :
    record_experience lm exp_type action context outcome success_score
      importance now =
      .error ("TypeError: __init__() got an unexpected keyword argument "
        ++ "type") ∧
    "type" ∈ recordExperienceCallKwargs ∧
    "type" ∉ learningExperienceParams := by
  refine ⟨rfl, by decide, by decide⟩

/-- C7: the matching-coefficient similarity is symmetric: the key-set union
is commutative and the matching condition (key in both dicts with equal
values) is symmetric in the two contexts. -/
theorem C7_similarity_symm (context1 context2 : List (String × String)) :
    similarity context1 context2 = similarity context2 context1 := by
  simp only [similarity]
  rw [Finset.union_comm]
  have hfilter :
      Finset.filter (fun k =>
        (context1.lookup k).isSome ∧ (context2.lookup k).isSome ∧
          context1.lookup k = context2.lookup k)
        ((context2.map Prod.fst).toFinset ∪
          (context1.map Prod.fst).toFinset) =
      Finset.filter (fun k =>
        (context2.lookup k).isSome ∧ (context1.lookup k).isSome ∧
          context2.lookup k = context1.lookup k)
        ((context2.map Prod.fst).toFinset ∪
          (context1.map Prod.fst).toFinset) := by
    refine Finset.filter_congr ?_
    intro k _
    constructor
    · rintro ⟨h1, h2, h3⟩
      exact ⟨h2, h1, h3.symm⟩
    · rintro ⟨h1, h2, h3⟩
      exact ⟨h2, h1, h3.symm⟩
  rw [hfilter]

end Learn

end Agent
